import Mathlib

/-!
Verification of the per-organization crawler configuration registry
(`src/app-test.js`): identifier allocation (`generateOrgId`), configuration
resolution (`getOrgConfig`), partial configuration update (`updateOrgConfig`,
a shallow object-spread merge plus organization auto-creation) and explicit
organization creation (`createOrg`).

The JavaScript values that flow through these operations (JSON documents,
form fields, organization records) are embedded as the inductive `CVal`.
Objects are association lists of string keys; property lookup takes the
first binding, and JavaScript object literals and `JSON.parse` never produce
duplicate keys, so well-formedness (`Nodup` of the key list) is assumed
where a statement needs it.

Two JavaScript builtin coercions are modelled on the fragment that the
registry's value domain exercises:
`Number(v)` (`jsToNumber`, `none` standing for NaN and the non-finite
results; string numerals are modelled on the optionally-signed decimal
integer fragment, which covers every representable organization id), and
`String(v)` (`jsToString`).
-/

/-- A JavaScript/JSON value: `null`, booleans, numbers, strings, arrays and
objects (association lists keyed by strings).  Numbers are embedded as
integers: every organization id and every numeric configuration value in the
program is integral. -/
inductive CVal where
  | null : CVal
  | bool : Bool → CVal
  | num : Int → CVal
  | str : String → CVal
  | list : List CVal → CVal
  | obj : List (String × CVal) → CVal
deriving Repr

/-- JavaScript truthiness: `null`, `false`, `0`, `""` are falsy (and `NaN`,
which `CVal` does not represent); every object and array is truthy. -/
def jsTruthy : CVal → Bool
  | CVal.null => false
  | CVal.bool b => b
  | CVal.num n => n != 0
  | CVal.str s => s != ""
  | CVal.list _ => true
  | CVal.obj _ => true

/-- Property read `fs[k]` on an object's fields: the first binding of `k`,
`none` when the key is absent (JavaScript `undefined`). -/
def lookupFirst (fs : List (String × CVal)) (k : String) : Option CVal :=
  match fs with
  | [] => none
  | (k', v) :: rest => if k' = k then some v else lookupFirst rest k

/-- The keys of an object's field list. -/
def keysOf (fs : List (String × CVal)) : List String :=
  fs.map Prod.fst

/-- Property write `fs[k] = v`: an existing key keeps its position and gets
the new value, a new key is appended (JavaScript object insertion order). -/
def insertKey : List (String × CVal) → String → CVal → List (String × CVal)
  | [], k, v => [(k, v)]
  | (k', v') :: rest, k, v =>
      if k' = k then (k', v) :: rest else (k', v') :: insertKey rest k v

/-- Spreading a source into an object literal being built: each field of
`src` is written into `acc` in order (later bindings of a key win, as for
`{...acc fields, ...src}`). -/
def spreadInsertAll (acc : List (String × CVal)) (src : List (String × CVal)) :
    List (String × CVal) :=
  src.foldl (fun a kv => insertKey a kv.1 kv.2) acc

/-- The own enumerable properties a value contributes under object spread:
an object contributes its fields, an array its elements under their decimal
indices, a string its characters under their decimal indices, and `null`,
booleans and numbers contribute nothing. -/
def enumFields : CVal → List (String × CVal)
  | CVal.obj fs => fs
  | CVal.list xs => xs.enum.map (fun p => (toString p.1, p.2))
  | CVal.str s => s.toList.enum.map (fun p => (toString p.1, CVal.str (String.singleton p.2)))
  | _ => []

/-- The object literal `{...existing, ...incoming}` of `updateOrgConfig`:
spread `existing` into an empty literal, then spread `incoming` over it, so
every top-level key of `incoming` overwrites (or extends) the base. -/
def mergeDocs (existing incoming : CVal) : List (String × CVal) :=
  spreadInsertAll (spreadInsertAll [] (enumFields existing)) (enumFields incoming)

/-- `Number(s)` for a string, on the optionally-signed decimal integer
fragment: surrounding whitespace is trimmed, the empty (or all-blank) string
converts to `0`, an optionally-signed run of decimal digits converts to its
value, and anything else is NaN (`none`). -/
def jsStringToNumber (s : String) : Option Int :=
  let t := s.trim
  if t = "" then some 0
  else
    let (sign, ds) : Int × List Char :=
      match t.toList with
      | '-' :: rest => (-1, rest)
      | '+' :: rest => (1, rest)
      | cs => (1, cs)
    if ds = [] then none
    else if ds.all Char.isDigit then
      some (sign * (ds.foldl (fun acc c => acc * 10 + (c.toNat - 48)) 0 : Nat))
    else none

/-- `Number(v)`: `null` and the empty array convert to `0`, booleans to `0`
or `1`, a one-element array converts as its element, strings via
`jsStringToNumber`; plain objects and longer arrays are NaN (`none`). -/
def jsToNumber : CVal → Option Int
  | CVal.null => some 0
  | CVal.bool b => some (if b then 1 else 0)
  | CVal.num n => some n
  | CVal.str s => jsStringToNumber s
  | CVal.list [] => some 0
  | CVal.list [x] => jsToNumber x
  | CVal.list (_ :: _ :: _) => none
  | CVal.obj _ => none

mutual

/-- `String(v)`: numbers print in decimal, arrays join their elements with
commas, plain objects print as `[object Object]`. -/
def jsToString : CVal → String
  | CVal.null => "null"
  | CVal.bool b => if b then "true" else "false"
  | CVal.num n => toString n
  | CVal.str s => s
  | CVal.list xs => String.intercalate "," (jsToStringEach xs)
  | CVal.obj _ => "[object Object]"

/-- `String` applied to each element of an array, for the comma join. -/
def jsToStringEach : List CVal → List String
  | [] => []
  | x :: xs => jsToString x :: jsToStringEach xs

end

/-- An organization record `{ORG_ID, ORG_NAME}` of the persisted
organization list.  `ORG_ID` is kept as the raw stored value (the program
itself stores both numbers and, on auto-creation of unparsable ids, other
values). -/
structure Org where
  ORG_ID : CVal
  ORG_NAME : String
deriving Repr

/-- The two persisted documents the handler reads and writes: the
configuration map (organization-id-as-string to configuration document) and
the organization list. -/
structure Store where
  configs : List (String × CVal)
  orgs : List Org
deriving Repr

def MIN_ORG_ID : Int := 1000000000000

def MAX_ORG_ID : Int := 1999999999999

/-- The error outcomes of the handler's actions, one constructor per
distinct failure response. -/
inductive ApiErr where
  | missingField
  | duplicateName
  | rangeExhausted
  | invalidConfigFormat
  | notFound
deriving Repr, DecidableEq

/-- The body of `generateOrgId`'s loop: when the organization's `ORG_ID`
converts to a finite number inside `[MIN_ORG_ID, MAX_ORG_ID]` and exceeds
the running maximum, it becomes the new maximum. -/
def observedStep (maxId : Int) (o : Org) : Int :=
  match jsToNumber o.ORG_ID with
  | some idNum =>
      if MIN_ORG_ID ≤ idNum ∧ idNum ≤ MAX_ORG_ID then
        if maxId < idNum then idNum else maxId
      else maxId
  | none => maxId

/-- The loop of `generateOrgId`: starting from `MIN_ORG_ID - 1`, fold
`observedStep` over the organization list. -/
def observedMax (orgs : List Org) : Int :=
  orgs.foldl observedStep (MIN_ORG_ID - 1)

/-- `generateOrgId(orgs)`: one more than the largest in-range id observed
(`MIN_ORG_ID` when none is), throwing `OrgId range exhausted` when that
candidate exceeds `MAX_ORG_ID`. -/
def generateOrgId (orgs : List Org) : Except ApiErr Int :=
  let next := observedMax orgs + 1
  if MAX_ORG_ID < next then Except.error ApiErr.rangeExhausted
  else Except.ok next

/-- The fields of the hardcoded `DEFAULT_CONFIG` document, in source
order. -/
def defaultConfigFields : List (String × CVal) :=
    [ ("isDefault", CVal.bool true),
      ("enabledFeatures",
        CVal.list [CVal.str "2", CVal.str "5", CVal.str "6", CVal.str "9",
          CVal.str "10", CVal.str "11"]),
      ("includeCrawledURLCountInResponse", CVal.bool false),
      ("throttleTimeInterval", CVal.str "1D"),
      ("whiteListedDomains",
        CVal.list [CVal.str "help.zoho.com", CVal.str "docs.catalyst.zoho.com",
          CVal.str "blogs.manageengine.com", CVal.str "www.manageengine.com",
          CVal.str "blog.zoho.com"]),
      ("throttleRequestCount", CVal.num 50),
      ("maxDepthAllowed", CVal.num (-1)),
      ("maxPagesToFetchAllowed", CVal.num 20000),
      ("maxAsyncResponseRate", CVal.num 100),
      ("requestPriority", CVal.num 5),
      ("isDynamicCrawlingAllowed", CVal.bool true),
      ("enabledCrawlerFields",
        CVal.list [CVal.str "Html", CVal.str "OutGoingURLs", CVal.str "Markdown"]),
      ("additionalQueryParams",
        CVal.list [CVal.str "requestId", CVal.str "recordId", CVal.str "seedStatus",
          CVal.str "recordStatus"]) ]

/-- The hardcoded `DEFAULT_CONFIG` document served when no org-specific
configuration exists. -/
def DEFAULT_CONFIG : CVal :=
  CVal.obj defaultConfigFields

/-- The predicate of `getOrgConfig`'s fallback scan, `c => c && c.isDefault
=== true`: the value is truthy and its `isDefault` property is strictly
equal to `true`. -/
def hasIsDefaultTrue (c : CVal) : Bool :=
  jsTruthy c &&
    (match c with
     | CVal.obj fs =>
        match lookupFirst fs "isDefault" with
        | some (CVal.bool true) => true
        | _ => false
     | _ => false)

/-- The fallback chain of `getOrgConfig`: the first value of the
configuration map satisfying `c && c.isDefault === true`, and the hardcoded
`DEFAULT_CONFIG` when none does
(`allConfigs.find(...) || DEFAULT_CONFIG`). -/
def fallbackConfig (configs : List (String × CVal)) : CVal :=
  ((configs.map Prod.snd).find? hasIsDefaultTrue).getD DEFAULT_CONFIG

/-- Configuration resolution for a given string key (`getOrgConfig` after
the organization-existence check): `configs[orgId]` when that read yields a
truthy value, the fallback chain otherwise (`let config = configs[orgId];
if (!config) config = find || DEFAULT_CONFIG`). -/
def resolveConfig (key : String) (configs : List (String × CVal)) : CVal :=
  match lookupFirst configs key with
  | some c => if jsTruthy c then c else fallbackConfig configs
  | none => fallbackConfig configs

/-- The whole `getOrgConfig` action: reject a missing (falsy) `orgId` with
400, reject an `orgId` matching no organization (ids compared as strings)
with `OrgId not found`, and otherwise resolve the configuration. -/
def getOrgConfig (orgId : Option CVal) (orgs : List Org)
    (configs : List (String × CVal)) : Except ApiErr CVal :=
  match orgId with
  | none => Except.error ApiErr.missingField
  | some oid =>
    if jsTruthy oid then
      if orgs.any (fun o => jsToString o.ORG_ID == jsToString oid) then
        Except.ok (resolveConfig (jsToString oid) configs)
      else Except.error ApiErr.notFound
    else Except.error ApiErr.missingField

/-- The `createOrg` action on the organization list: reject a missing or
empty (falsy) `orgName`, reject a name some existing organization already
has (`orgs.some(o => o.ORG_NAME === orgName)`), otherwise allocate an id
with `generateOrgId`, append `{ORG_ID, ORG_NAME}` and return it.  The
second component is the organization list as persisted afterwards. -/
def createOrg (orgName : Option String) (orgs : List Org) :
    Except ApiErr Org × List Org :=
  match orgName with
  | none => (Except.error ApiErr.missingField, orgs)
  | some name =>
    if name = "" then (Except.error ApiErr.missingField, orgs)
    else if orgs.any (fun o => o.ORG_NAME == name) then
      (Except.error ApiErr.duplicateName, orgs)
    else
      match generateOrgId orgs with
      | Except.error e => (Except.error e, orgs)
      | Except.ok newId =>
        let newOrg : Org := { ORG_ID := CVal.num newId, ORG_NAME := name }
        (Except.ok newOrg, orgs ++ [newOrg])

/-- The request body of the `updateOrgConfig` action: the `orgId` and
`config` fields (absent when the form did not supply them) and the optional
`orgName` used on auto-creation. -/
structure UpdateReq where
  orgId : Option CVal
  config : Option CVal
  orgName : Option String

/-- The `updateOrgConfig` action, parametrised by the JSON decoder `parse`
applied when the `config` field arrives as a string (`JSON.parse`, `none`
on undecodable text).  Mirrors the handler: reject a missing/falsy `orgId`
or `config` (400); decode a string `config`, rejecting undecodable text
(400) before any write; merge `{...(configs[orgId] || DEFAULT_CONFIG),
...config}`; store the merged document under the id's string key; then
append an auto-created `{ORG_ID, ORG_NAME}` record unless an organization
with the same id (compared as strings) already exists.  Returns the
response (the merged document on success) and the store as persisted
afterwards. -/
def updateOrgConfig (parse : String → Option CVal) (req : UpdateReq)
    (st : Store) : Except ApiErr (List (String × CVal)) × Store :=
  match req.orgId, req.config with
  | some oid, some cfg =>
    if jsTruthy oid && jsTruthy cfg then
      let decoded? : Option CVal :=
        match cfg with
        | CVal.str s => parse s
        | c => some c
      match decoded? with
      | none => (Except.error ApiErr.invalidConfigFormat, st)
      | some decoded =>
        let key := jsToString oid
        let existingConfig :=
          match lookupFirst st.configs key with
          | some c => if jsTruthy c then c else DEFAULT_CONFIG
          | none => DEFAULT_CONFIG
        let mergedConfig := mergeDocs existingConfig decoded
        let configs' := insertKey st.configs key (CVal.obj mergedConfig)
        let orgs' :=
          if st.orgs.any (fun o => jsToString o.ORG_ID == key) then st.orgs
          else
            let orgName :=
              match req.orgName with
              | some s => if s = "" then "Org-" ++ key else s
              | none => "Org-" ++ key
            st.orgs ++
              [{ ORG_ID :=
                   match jsToNumber oid with
                   | some n => CVal.num n
                   | none => oid,
                 ORG_NAME := orgName }]
        (Except.ok mergedConfig, { configs := configs', orgs := orgs' })
    else (Except.error ApiErr.missingField, st)
  | _, _ => (Except.error ApiErr.missingField, st)

/-- An organization the allocator's scan counts: its id converts to a
number inside `[MIN_ORG_ID, MAX_ORG_ID]`. -/
def isInRangeOrg (o : Org) : Bool :=
  match jsToNumber o.ORG_ID with
  | some n => decide (MIN_ORG_ID ≤ n ∧ n ≤ MAX_ORG_ID)
  | none => false

lemma observedStep_ge (a : Int) (o : Org) : a ≤ observedStep a o := by
  unfold observedStep
  cases jsToNumber o.ORG_ID with
  | none => exact le_refl a
  | some n =>
    by_cases h : MIN_ORG_ID ≤ n ∧ n ≤ MAX_ORG_ID
    · simp only [if_pos h]
      by_cases h2 : a < n
      · simp only [if_pos h2]; exact le_of_lt h2
      · simp only [if_neg h2]; exact le_refl a
    · simp only [if_neg h]; exact le_refl a

lemma observedStep_le_max (a : Int) (o : Org) (ha : a ≤ MAX_ORG_ID) :
    observedStep a o ≤ MAX_ORG_ID := by
  unfold observedStep
  cases jsToNumber o.ORG_ID with
  | none => exact ha
  | some n =>
    by_cases h : MIN_ORG_ID ≤ n ∧ n ≤ MAX_ORG_ID
    · simp only [if_pos h]
      by_cases h2 : a < n
      · simp only [if_pos h2]; exact h.2
      · simp only [if_neg h2]; exact ha
    · simp only [if_neg h]; exact ha

lemma observedStep_mem_ge (a : Int) (o : Org) (n : Int)
    (hn : jsToNumber o.ORG_ID = some n)
    (h1 : MIN_ORG_ID ≤ n) (h2 : n ≤ MAX_ORG_ID) : n ≤ observedStep a o := by
  unfold observedStep
  rw [hn]
  simp only [if_pos (And.intro h1 h2)]
  by_cases hlt : a < n
  · simp only [if_pos hlt]; exact le_refl n
  · simp only [if_neg hlt]; exact le_of_not_lt hlt

lemma observedStep_cases (a : Int) (o : Org) :
    observedStep a o = a ∨
      ∃ n, jsToNumber o.ORG_ID = some n ∧ MIN_ORG_ID ≤ n ∧ n ≤ MAX_ORG_ID ∧
        observedStep a o = n := by
  unfold observedStep
  cases hj : jsToNumber o.ORG_ID with
  | none => exact Or.inl rfl
  | some n =>
    by_cases h : MIN_ORG_ID ≤ n ∧ n ≤ MAX_ORG_ID
    · by_cases h2 : a < n
      · exact Or.inr ⟨n, rfl, h.1, h.2, by simp only [if_pos h, if_pos h2]⟩
      · exact Or.inl (by simp only [if_pos h, if_neg h2])
    · exact Or.inl (by simp only [if_neg h])

lemma observedStep_not_in_range (a : Int) (o : Org)
    (h : isInRangeOrg o = false) : observedStep a o = a := by
  unfold observedStep
  unfold isInRangeOrg at h
  cases hj : jsToNumber o.ORG_ID with
  | none => rfl
  | some n =>
    rw [hj] at h
    simp only [decide_eq_false_iff_not] at h
    simp only [if_neg h]

lemma foldl_observedStep_ge (orgs : List Org) :
    ∀ a : Int, a ≤ orgs.foldl observedStep a := by
  induction orgs with
  | nil => intro a; exact le_refl a
  | cons o rest ih =>
    intro a
    rw [List.foldl_cons]
    exact le_trans (observedStep_ge a o) (ih (observedStep a o))

lemma foldl_observedStep_le_max (orgs : List Org) :
    ∀ a : Int, a ≤ MAX_ORG_ID → orgs.foldl observedStep a ≤ MAX_ORG_ID := by
  induction orgs with
  | nil => intro a ha; exact ha
  | cons o rest ih =>
    intro a ha
    rw [List.foldl_cons]
    exact ih (observedStep a o) (observedStep_le_max a o ha)

lemma foldl_observedStep_mem (orgs : List Org) :
    ∀ a : Int, ∀ o ∈ orgs, ∀ n, jsToNumber o.ORG_ID = some n →
      MIN_ORG_ID ≤ n → n ≤ MAX_ORG_ID → n ≤ orgs.foldl observedStep a := by
  induction orgs with
  | nil => intro a o ho; exact absurd ho (List.not_mem_nil o)
  | cons o' rest ih =>
    intro a o ho n hn h1 h2
    rw [List.foldl_cons]
    rcases List.mem_cons.mp ho with he | hr
    · subst he
      exact le_trans (observedStep_mem_ge a o n hn h1 h2)
        (foldl_observedStep_ge rest (observedStep a o))
    · exact ih (observedStep a o') o hr n hn h1 h2

lemma foldl_observedStep_eq_or_mem (orgs : List Org) :
    ∀ a : Int, orgs.foldl observedStep a = a ∨
      ∃ o ∈ orgs, ∃ n, jsToNumber o.ORG_ID = some n ∧
        MIN_ORG_ID ≤ n ∧ n ≤ MAX_ORG_ID ∧ orgs.foldl observedStep a = n := by
  induction orgs with
  | nil => intro a; exact Or.inl rfl
  | cons o rest ih =>
    intro a
    rw [List.foldl_cons]
    rcases ih (observedStep a o) with hrest | ⟨o', ho', n, hn, h1, h2, hval⟩
    · rcases observedStep_cases a o with hstep | ⟨n, hn, h1, h2, hstep⟩
      · exact Or.inl (by rw [hrest, hstep])
      · exact Or.inr ⟨o, List.mem_cons_self o rest, n, hn, h1, h2, by rw [hrest, hstep]⟩
    · exact Or.inr ⟨o', List.mem_cons_of_mem o ho', n, hn, h1, h2, hval⟩

lemma foldl_observedStep_filter (orgs : List Org) :
    ∀ a : Int, orgs.foldl observedStep a =
      (orgs.filter isInRangeOrg).foldl observedStep a := by
  induction orgs with
  | nil => intro a; rfl
  | cons o rest ih =>
    intro a
    rw [List.foldl_cons, List.filter_cons]
    cases hin : isInRangeOrg o with
    | true => simp only [if_pos rfl, List.foldl_cons]; exact ih (observedStep a o)
    | false =>
      simp only [Bool.false_eq_true, if_neg, ite_false]
      rw [observedStep_not_in_range a o hin]
      exact ih a

lemma observedMax_le_max (orgs : List Org) : observedMax orgs ≤ MAX_ORG_ID := by
  unfold observedMax
  exact foldl_observedStep_le_max orgs (MIN_ORG_ID - 1) (by norm_num [MIN_ORG_ID, MAX_ORG_ID])

/-- C1: `generateOrgId` returns `max(observed in-range ids, MIN_ORG_ID - 1)
+ 1`: whenever it returns an id, that id is the successor of the loop's
maximum and is strictly greater than every id of the input that converts to
a finite number inside `[MIN_ORG_ID, MAX_ORG_ID]`; organizations whose id
is outside that band or non-numeric are ignored (filtering them away does
not change the outcome); and the result is `MIN_ORG_ID` when no in-range id
is present, in particular on the empty list. -/
theorem generateOrgId_spec (orgs : List Org) :
    (∀ r, generateOrgId orgs = Except.ok r → r = observedMax orgs + 1) ∧
    (∀ r, generateOrgId orgs = Except.ok r →
      ∀ o ∈ orgs, ∀ n, jsToNumber o.ORG_ID = some n →
        MIN_ORG_ID ≤ n → n ≤ MAX_ORG_ID → n < r) ∧
    generateOrgId orgs = generateOrgId (orgs.filter isInRangeOrg) ∧
    (observedMax orgs = MIN_ORG_ID - 1 ∨
      ∃ o ∈ orgs, ∃ n, jsToNumber o.ORG_ID = some n ∧
        MIN_ORG_ID ≤ n ∧ n ≤ MAX_ORG_ID ∧ observedMax orgs = n) ∧
    ((∀ o ∈ orgs, isInRangeOrg o = false) →
      generateOrgId orgs = Except.ok MIN_ORG_ID) ∧
    generateOrgId ([] : List Org) = Except.ok MIN_ORG_ID := by
  refine ⟨?_, ?_, ?_, foldl_observedStep_eq_or_mem orgs (MIN_ORG_ID - 1), ?_, ?_⟩
  · intro r hr
    unfold generateOrgId at hr
    by_cases h : MAX_ORG_ID < observedMax orgs + 1
    · simp only [if_pos h] at hr
      exact Except.noConfusion hr
    · simp only [if_neg h] at hr
      exact (Except.ok.injEq _ _ ▸ hr.symm)
  · intro r hr o ho n hn h1 h2
    unfold generateOrgId at hr
    by_cases h : MAX_ORG_ID < observedMax orgs + 1
    · simp only [if_pos h] at hr
      exact Except.noConfusion hr
    · simp only [if_neg h] at hr
      have hle : n ≤ observedMax orgs :=
        foldl_observedStep_mem orgs (MIN_ORG_ID - 1) o ho n hn h1 h2
      have : r = observedMax orgs + 1 := (Except.ok.injEq _ _ ▸ hr.symm)
      rw [this]
      exact lt_of_le_of_lt hle (lt_add_one _)
  · unfold generateOrgId observedMax
    rw [foldl_observedStep_filter orgs (MIN_ORG_ID - 1)]
  · intro hnone
    have hmax : observedMax orgs = MIN_ORG_ID - 1 := by
      unfold observedMax
      rcases foldl_observedStep_eq_or_mem orgs (MIN_ORG_ID - 1) with h | ⟨o, ho, n, hn, h1, h2, _⟩
      · exact h
      · have : isInRangeOrg o = true := by
          unfold isInRangeOrg
          rw [hn]
          exact decide_eq_true (And.intro h1 h2)
        rw [hnone o ho] at this
        exact absurd this (by simp)
    unfold generateOrgId
    rw [hmax]
    have hmin : MIN_ORG_ID - 1 + 1 = MIN_ORG_ID := by ring
    rw [hmin]
    simp only [if_neg (by norm_num [MIN_ORG_ID, MAX_ORG_ID] : ¬ MAX_ORG_ID < MIN_ORG_ID)]
  · rfl

/-- C5: `generateOrgId` fails with `RangeExhausted` exactly when the
candidate `observedMax + 1` exceeds `MAX_ORG_ID`; in particular, whenever
some organization's id converts to exactly `MAX_ORG_ID`, the allocator
fails with `RangeExhausted` and returns no id. -/
theorem generateOrgId_exhaustion (orgs : List Org) :
    (generateOrgId orgs = Except.error ApiErr.rangeExhausted ↔
      MAX_ORG_ID < observedMax orgs + 1) ∧
    (∀ o ∈ orgs, jsToNumber o.ORG_ID = some MAX_ORG_ID →
      generateOrgId orgs = Except.error ApiErr.rangeExhausted ∧
        ∀ r, generateOrgId orgs ≠ Except.ok r) := by
  constructor
  · constructor
    · intro herr
      by_contra h
      unfold generateOrgId at herr
      simp only [if_neg h] at herr
      exact Except.noConfusion herr
    · intro h
      unfold generateOrgId
      simp only [if_pos h]
  · intro o ho hn
    have hle : MAX_ORG_ID ≤ observedMax orgs :=
      foldl_observedStep_mem orgs (MIN_ORG_ID - 1) o ho MAX_ORG_ID hn
        (by norm_num [MIN_ORG_ID, MAX_ORG_ID]) (le_refl _)
    have hlt : MAX_ORG_ID < observedMax orgs + 1 := lt_of_le_of_lt hle (lt_add_one _)
    unfold generateOrgId
    simp only [if_pos hlt]
    exact ⟨trivial, fun r h => Except.noConfusion h⟩

lemma lookupFirst_eq_none_iff (fs : List (String × CVal)) (k : String) :
    lookupFirst fs k = none ↔ k ∉ keysOf fs := by
  induction fs with
  | nil => simp [lookupFirst, keysOf]
  | cons kv rest ih =>
    obtain ⟨k', v⟩ := kv
    have hkeys : keysOf ((k', v) :: rest) = k' :: keysOf rest := rfl
    by_cases h : k' = k
    · subst h
      simp [lookupFirst, hkeys]
    · rw [hkeys]
      simp only [lookupFirst, if_neg h, List.mem_cons]
      rw [ih]
      constructor
      · intro hk hor
        rcases hor with he | hm
        · exact h he.symm
        · exact hk hm
      · intro hk hm
        exact hk (Or.inr hm)

lemma lookupFirst_some_mem_keys (fs : List (String × CVal)) (k : String) (v : CVal)
    (h : lookupFirst fs k = some v) : k ∈ keysOf fs := by
  by_contra hk
  rw [← lookupFirst_eq_none_iff fs k] at hk
  rw [h] at hk
  exact Option.noConfusion hk

lemma lookupFirst_mem_pair (fs : List (String × CVal)) (k : String) (v : CVal)
    (h : lookupFirst fs k = some v) : (k, v) ∈ fs := by
  induction fs with
  | nil => exact Option.noConfusion h
  | cons kv rest ih =>
    obtain ⟨k', v'⟩ := kv
    by_cases he : k' = k
    · subst he
      have h' : v' = v := by simpa [lookupFirst] using h
      subst h'
      exact List.mem_cons_self _ _
    · simp only [lookupFirst, if_neg he] at h
      exact List.mem_cons_of_mem _ (ih h)

lemma lookupFirst_insertKey_self (k : String) (v : CVal) :
    ∀ fs : List (String × CVal), lookupFirst (insertKey fs k v) k = some v := by
  intro fs
  induction fs with
  | nil => simp [insertKey, lookupFirst]
  | cons kv rest ih =>
    obtain ⟨k', v'⟩ := kv
    by_cases he : k' = k
    · simp [insertKey, lookupFirst, he]
    · simp [insertKey, lookupFirst, he, ih]

lemma lookupFirst_insertKey_other (k k' : String) (v : CVal) (hne : k' ≠ k) :
    ∀ fs : List (String × CVal), lookupFirst (insertKey fs k' v) k = lookupFirst fs k := by
  intro fs
  induction fs with
  | nil => simp [insertKey, lookupFirst, hne]
  | cons kv rest ih =>
    obtain ⟨k0, v0⟩ := kv
    by_cases he : k0 = k'
    · subst he
      simp [insertKey, lookupFirst, hne]
    · by_cases hk : k0 = k
      · simp [insertKey, lookupFirst, he, hk, Ne.symm hne]
      · simp [insertKey, lookupFirst, he, hk, ih]

lemma insertKey_of_not_mem (k : String) (v : CVal) :
    ∀ fs : List (String × CVal), k ∉ keysOf fs → insertKey fs k v = fs ++ [(k, v)] := by
  intro fs
  induction fs with
  | nil => intro _; rfl
  | cons kv rest ih =>
    intro h
    obtain ⟨k0, v0⟩ := kv
    have hkeys : keysOf ((k0, v0) :: rest) = k0 :: keysOf rest := rfl
    rw [hkeys] at h
    have h0 : k0 ≠ k := fun he => h (by rw [← he]; exact List.mem_cons_self _ _)
    have hr : k ∉ keysOf rest := fun hm => h (List.mem_cons_of_mem _ hm)
    simp [insertKey, h0, ih hr]

lemma spreadInsertAll_nil (acc : List (String × CVal)) : spreadInsertAll acc [] = acc := rfl

lemma spreadInsertAll_cons (acc : List (String × CVal)) (k : String) (v : CVal)
    (src : List (String × CVal)) :
    spreadInsertAll acc ((k, v) :: src) = spreadInsertAll (insertKey acc k v) src := rfl

lemma lookupFirst_spreadInsertAll_not_mem (k : String) :
    ∀ src acc : List (String × CVal), k ∉ keysOf src →
      lookupFirst (spreadInsertAll acc src) k = lookupFirst acc k := by
  intro src
  induction src with
  | nil => intro acc _; rfl
  | cons kv rest ih =>
    intro acc h
    obtain ⟨k0, v0⟩ := kv
    have hkeys : keysOf ((k0, v0) :: rest) = k0 :: keysOf rest := rfl
    rw [hkeys] at h
    have h0 : k0 ≠ k := fun he => h (by rw [← he]; exact List.mem_cons_self _ _)
    have hr : k ∉ keysOf rest := fun hm => h (List.mem_cons_of_mem _ hm)
    rw [spreadInsertAll_cons, ih (insertKey acc k0 v0) hr,
      lookupFirst_insertKey_other k k0 v0 h0]

lemma lookupFirst_spreadInsertAll_mem (k : String) :
    ∀ src acc : List (String × CVal), (keysOf src).Nodup → k ∈ keysOf src →
      lookupFirst (spreadInsertAll acc src) k = lookupFirst src k := by
  intro src
  induction src with
  | nil => intro acc _ h; exact absurd h (List.not_mem_nil k)
  | cons kv rest ih =>
    intro acc hnd hk
    obtain ⟨k0, v0⟩ := kv
    have hnd' : (keysOf rest).Nodup ∧ k0 ∉ keysOf rest := by
      have : keysOf ((k0, v0) :: rest) = k0 :: keysOf rest := rfl
      rw [this] at hnd
      exact ⟨(List.nodup_cons.mp hnd).2, (List.nodup_cons.mp hnd).1⟩
    rw [spreadInsertAll_cons]
    by_cases he : k0 = k
    · subst he
      have hrest : k0 ∉ keysOf rest := hnd'.2
      rw [lookupFirst_spreadInsertAll_not_mem k0 rest (insertKey acc k0 v0) hrest,
        lookupFirst_insertKey_self k0 v0 acc]
      simp [lookupFirst]
    · have hkrest : k ∈ keysOf rest := by
        have : keysOf ((k0, v0) :: rest) = k0 :: keysOf rest := rfl
        rw [this] at hk
        rcases List.mem_cons.mp hk with h | h
        · exact absurd h.symm he
        · exact h
      rw [ih (insertKey acc k0 v0) hnd'.1 hkrest]
      simp [lookupFirst, he]

lemma spreadInsertAll_of_disjoint :
    ∀ src acc : List (String × CVal), (keysOf src).Nodup →
      (∀ k ∈ keysOf src, k ∉ keysOf acc) → spreadInsertAll acc src = acc ++ src := by
  intro src
  induction src with
  | nil => intro acc _ _; simp [spreadInsertAll_nil]
  | cons kv rest ih =>
    intro acc hnd hdisj
    obtain ⟨k0, v0⟩ := kv
    have hkeys : keysOf ((k0, v0) :: rest) = k0 :: keysOf rest := rfl
    rw [hkeys] at hnd hdisj
    have hk0 : k0 ∉ keysOf acc := hdisj k0 (List.mem_cons_self _ _)
    rw [spreadInsertAll_cons, insertKey_of_not_mem k0 v0 acc hk0]
    rw [ih (acc ++ [(k0, v0)]) (List.nodup_cons.mp hnd).2 ?_]
    · rw [List.append_assoc]
      rfl
    · intro k hk
      have hkacc : k ∉ keysOf acc := hdisj k (List.mem_cons_of_mem _ hk)
      have hkne : k ≠ k0 := fun he => (List.nodup_cons.mp hnd).1 (he ▸ hk)
      have : keysOf (acc ++ [(k0, v0)]) = keysOf acc ++ [k0] := by
        simp [keysOf]
      rw [this]
      simp only [List.mem_append, List.mem_singleton]
      rintro (h | h)
      · exact hkacc h
      · exact hkne h

lemma spreadInsertAll_nil_left (base : List (String × CVal))
    (h : (keysOf base).Nodup) : spreadInsertAll [] base = base := by
  have := spreadInsertAll_of_disjoint base [] h (by intro k _; simp [keysOf])
  simpa using this

lemma mergeDocs_obj (B P : List (String × CVal)) (hB : (keysOf B).Nodup) :
    mergeDocs (CVal.obj B) (CVal.obj P) = spreadInsertAll B P := by
  unfold mergeDocs enumFields
  rw [spreadInsertAll_nil_left B hB]

lemma hasIsDefaultTrue_obj (fs : List (String × CVal)) :
    hasIsDefaultTrue (CVal.obj fs) = true ↔
      lookupFirst fs "isDefault" = some (CVal.bool true) := by
  unfold hasIsDefaultTrue
  cases h : lookupFirst fs "isDefault" with
  | none => simp [jsTruthy, h]
  | some v =>
    cases v with
    | null => simp [jsTruthy, h]
    | bool b => cases b with
      | true => simp [jsTruthy, h]
      | false => simp [jsTruthy, h]
    | num n => simp [jsTruthy, h]
    | str s => simp [jsTruthy, h]
    | list xs => simp [jsTruthy, h]
    | obj fs2 => simp [jsTruthy, h]

lemma jsTruthy_fallbackConfig (configs : List (String × CVal)) :
    jsTruthy (fallbackConfig configs) = true := by
  unfold fallbackConfig
  cases h : (configs.map Prod.snd).find? hasIsDefaultTrue with
  | none => simp [DEFAULT_CONFIG, jsTruthy]
  | some d =>
    have hp := List.find?_some h
    simp only [Option.getD_some]
    unfold hasIsDefaultTrue at hp
    simp only [Bool.and_eq_true] at hp
    exact hp.1

/-- C2: the shallow merge `{...B, ...P}` performed by `updateOrgConfig` is
non-destructive and top-level only: every key of the base `B` not present
in the incoming partial `P` keeps `B`'s value, every key of `P` gets `P`'s
value, and a nested structure under a key of `P` fully replaces a
same-named nested structure of `B` (no recursive merge). -/
theorem merge_non_destruction (B P : List (String × CVal))
    (hB : (keysOf B).Nodup) (hP : (keysOf P).Nodup) :
    (∀ k, k ∉ keysOf P →
      lookupFirst (mergeDocs (CVal.obj B) (CVal.obj P)) k = lookupFirst B k) ∧
    (∀ k, k ∈ keysOf P →
      lookupFirst (mergeDocs (CVal.obj B) (CVal.obj P)) k = lookupFirst P k) ∧
    (∀ k fb fp, lookupFirst B k = some (CVal.obj fb) →
      lookupFirst P k = some (CVal.obj fp) →
      lookupFirst (mergeDocs (CVal.obj B) (CVal.obj P)) k = some (CVal.obj fp)) := by
  refine ⟨?_, ?_, ?_⟩
  · intro k hk
    rw [mergeDocs_obj B P hB]
    exact lookupFirst_spreadInsertAll_not_mem k P B hk
  · intro k hk
    rw [mergeDocs_obj B P hB]
    exact lookupFirst_spreadInsertAll_mem k P B hP hk
  · intro k fb fp hb hp
    rw [mergeDocs_obj B P hB,
      lookupFirst_spreadInsertAll_mem k P B hP (lookupFirst_some_mem_keys P k _ hp)]
    exact hp

/-- Witness for C2 at concrete documents: the base key `"a"` (absent from
the partial) keeps its value, and the nested object under `"nested"` is
fully replaced by the partial's nested object. -/
theorem merge_non_destruction_witness :
    lookupFirst
        (mergeDocs (CVal.obj [("a", CVal.num 1), ("nested", CVal.obj [("x", CVal.num 1)])])
          (CVal.obj [("nested", CVal.obj [("y", CVal.num 2)]), ("b", CVal.num 3)])) "a" =
      lookupFirst [("a", CVal.num 1), ("nested", CVal.obj [("x", CVal.num 1)])] "a" ∧
    lookupFirst
        (mergeDocs (CVal.obj [("a", CVal.num 1), ("nested", CVal.obj [("x", CVal.num 1)])])
          (CVal.obj [("nested", CVal.obj [("y", CVal.num 2)]), ("b", CVal.num 3)])) "nested" =
      some (CVal.obj [("y", CVal.num 2)]) :=
  ⟨(merge_non_destruction
      [("a", CVal.num 1), ("nested", CVal.obj [("x", CVal.num 1)])]
      [("nested", CVal.obj [("y", CVal.num 2)]), ("b", CVal.num 3)]
      (by decide) (by decide)).1 "a" (by decide),
   (merge_non_destruction
      [("a", CVal.num 1), ("nested", CVal.obj [("x", CVal.num 1)])]
      [("nested", CVal.obj [("y", CVal.num 2)]), ("b", CVal.num 3)]
      (by decide) (by decide)).2.2 "nested" [("x", CVal.num 1)] [("y", CVal.num 2)] rfl rfl⟩

/-- C3: for a configuration map whose values are structural documents
(objects), resolution after the existence check follows the precedence:
a present entry is returned unchanged; otherwise the first value (in the
map's order) with `isDefault === true`; otherwise the hardcoded
`DEFAULT_CONFIG`.  (`hasIsDefaultTrue` tests exactly
`c.isDefault === true` on an object, as the last conjunct states.)  The
resolver is a pure function of its arguments and mutates nothing. -/
theorem resolveConfig_precedence (key : String) (configs : List (String × CVal))
    (hdoc : ∀ k v, (k, v) ∈ configs → ∃ fs, v = CVal.obj fs) :
    (∀ c, lookupFirst configs key = some c → resolveConfig key configs = c) ∧
    (lookupFirst configs key = none →
      ∀ d, (configs.map Prod.snd).find? hasIsDefaultTrue = some d →
        resolveConfig key configs = d) ∧
    (lookupFirst configs key = none →
      (configs.map Prod.snd).find? hasIsDefaultTrue = none →
        resolveConfig key configs = DEFAULT_CONFIG) ∧
    (∀ fs, hasIsDefaultTrue (CVal.obj fs) = true ↔
      lookupFirst fs "isDefault" = some (CVal.bool true)) := by
  refine ⟨?_, ?_, ?_, hasIsDefaultTrue_obj⟩
  · intro c hc
    obtain ⟨fs, hfs⟩ := hdoc key c (lookupFirst_mem_pair configs key c hc)
    subst hfs
    unfold resolveConfig
    rw [hc]
    simp [jsTruthy]
  · intro hnone d hfind
    unfold resolveConfig fallbackConfig
    rw [hnone, hfind]
    rfl
  · intro hnone hfind
    unfold resolveConfig fallbackConfig
    rw [hnone, hfind]
    rfl

/-- Witness for C3: a present entry is returned unchanged, at a concrete
one-entry map. -/
theorem resolveConfig_precedence_witness :
    resolveConfig "1000000000000" [("1000000000000", CVal.obj [("a", CVal.num 1)])] =
      CVal.obj [("a", CVal.num 1)] :=
  (resolveConfig_precedence "1000000000000"
      [("1000000000000", CVal.obj [("a", CVal.num 1)])]
      (by
        intro k v hm
        simp only [List.mem_singleton, Prod.mk.injEq] at hm
        exact ⟨[("a", CVal.num 1)], hm.2⟩)).1 _ rfl

/-- C10: when the configuration map has an entry for the organization's key
but its value is falsy (`null`, `false`, `0` or `""`), `getOrgConfig` does
not serve that stored value: it serves the fallback chain (the first
`isDefault === true` value in map order, else the hardcoded default)
exactly as it does for an absent entry — and the served document is never
the falsy stored value. -/
theorem getOrgConfig_skips_falsy_entry (oid : CVal) (orgs : List Org)
    (configs : List (String × CVal)) (v : CVal)
    (htr : jsTruthy oid = true)
    (hexists : orgs.any (fun o => jsToString o.ORG_ID == jsToString oid) = true)
    (hlook : lookupFirst configs (jsToString oid) = some v)
    (hfalsy : jsTruthy v = false) :
    getOrgConfig (some oid) orgs configs = Except.ok (fallbackConfig configs) ∧
    resolveConfig (jsToString oid) configs = fallbackConfig configs ∧
    fallbackConfig configs ≠ v := by
  have hres : resolveConfig (jsToString oid) configs = fallbackConfig configs := by
    unfold resolveConfig
    rw [hlook]
    simp [hfalsy]
  refine ⟨?_, hres, ?_⟩
  · unfold getOrgConfig
    simp [htr, hexists, hres]
  · intro he
    have htrf := jsTruthy_fallbackConfig configs
    rw [he, hfalsy] at htrf
    exact Bool.noConfusion htrf

/-- Witness for C10: a map whose only entry for the requested id is `null`
and whose second value is an `isDefault: true` document; the resolver
serves that document, not the stored `null`. -/
theorem getOrgConfig_skips_falsy_entry_witness :
    getOrgConfig (some (CVal.str "1000000000000"))
        [{ ORG_ID := CVal.num 1000000000000, ORG_NAME := "Acme" }]
        [("1000000000000", CVal.null),
         ("1000000000001", CVal.obj [("isDefault", CVal.bool true)])] =
      Except.ok
        (fallbackConfig
          [("1000000000000", CVal.null),
           ("1000000000001", CVal.obj [("isDefault", CVal.bool true)])]) :=
  (getOrgConfig_skips_falsy_entry (CVal.str "1000000000000")
      [{ ORG_ID := CVal.num 1000000000000, ORG_NAME := "Acme" }]
      [("1000000000000", CVal.null),
       ("1000000000001", CVal.obj [("isDefault", CVal.bool true)])]
      CVal.null rfl rfl rfl rfl).1

lemma defaultKeys_nodup : (keysOf defaultConfigFields).Nodup := by decide

lemma updateOrgConfig_absent_entry (parse : String → Option CVal) (oid : CVal)
    (P : List (String × CVal)) (nameField : Option String) (st : Store)
    (htr : jsTruthy oid = true)
    (habsent : lookupFirst st.configs (jsToString oid) = none) :
    (updateOrgConfig parse ⟨some oid, some (CVal.obj P), nameField⟩ st).1 =
      Except.ok (mergeDocs DEFAULT_CONFIG (CVal.obj P)) ∧
    (updateOrgConfig parse ⟨some oid, some (CVal.obj P), nameField⟩ st).2.configs =
      insertKey st.configs (jsToString oid)
        (CVal.obj (mergeDocs DEFAULT_CONFIG (CVal.obj P))) := by
  unfold updateOrgConfig
  simp [htr, habsent, show jsTruthy (CVal.obj P) = true from rfl]

/-- C4: when `updateOrgConfig` is called for an id with no entry in the
configuration map, the merge base is the hardcoded `DEFAULT_CONFIG` (not an
empty document): the response is the merge of `DEFAULT_CONFIG` with the
incoming partial, and every hardcoded-default field not overridden by the
partial is present in the merged result with its default value. -/
theorem updateOrgConfig_default_base (parse : String → Option CVal) (oid : CVal)
    (P : List (String × CVal)) (nameField : Option String) (st : Store)
    (htr : jsTruthy oid = true)
    (habsent : lookupFirst st.configs (jsToString oid) = none) :
    (updateOrgConfig parse ⟨some oid, some (CVal.obj P), nameField⟩ st).1 =
      Except.ok (mergeDocs DEFAULT_CONFIG (CVal.obj P)) ∧
    (∀ k, k ∉ keysOf P →
      lookupFirst (mergeDocs DEFAULT_CONFIG (CVal.obj P)) k =
        lookupFirst defaultConfigFields k) := by
  refine ⟨(updateOrgConfig_absent_entry parse oid P nameField st htr habsent).1, ?_⟩
  intro k hk
  rw [show DEFAULT_CONFIG = CVal.obj defaultConfigFields from rfl,
    mergeDocs_obj defaultConfigFields P defaultKeys_nodup]
  exact lookupFirst_spreadInsertAll_not_mem k P defaultConfigFields hk

/-- Witness for C4: a first write of `{"throttleRequestCount": 75}` against
an empty store returns the default document with only that field
overridden; the untouched default field `maxDepthAllowed` keeps its default
value. -/
theorem updateOrgConfig_default_base_witness :
    (updateOrgConfig (fun _ => none)
        ⟨some (CVal.str "1000000000001"),
         some (CVal.obj [("throttleRequestCount", CVal.num 75)]), none⟩
        ⟨[], []⟩).1 =
      Except.ok (mergeDocs DEFAULT_CONFIG
        (CVal.obj [("throttleRequestCount", CVal.num 75)])) ∧
    lookupFirst (mergeDocs DEFAULT_CONFIG
        (CVal.obj [("throttleRequestCount", CVal.num 75)])) "maxDepthAllowed" =
      lookupFirst defaultConfigFields "maxDepthAllowed" :=
  ⟨(updateOrgConfig_default_base (fun _ => none) (CVal.str "1000000000001")
      [("throttleRequestCount", CVal.num 75)] none ⟨[], []⟩ rfl rfl).1,
   (updateOrgConfig_default_base (fun _ => none) (CVal.str "1000000000001")
      [("throttleRequestCount", CVal.num 75)] none ⟨[], []⟩ rfl rfl).2
     "maxDepthAllowed" (by decide)⟩

/-- C6: when the `config` field arrives as a textual encoding that fails to
decode, `updateOrgConfig` fails with the invalid-format error (HTTP 400)
and the returned store is exactly the input store: neither the
configuration map nor the organization list is written. -/
theorem updateOrgConfig_invalid_json (parse : String → Option CVal) (oid : CVal)
    (s : String) (nameField : Option String) (st : Store)
    (htr : jsTruthy oid = true) (hs : s ≠ "") (hparse : parse s = none) :
    updateOrgConfig parse ⟨some oid, some (CVal.str s), nameField⟩ st =
      (Except.error ApiErr.invalidConfigFormat, st) := by
  unfold updateOrgConfig
  have hcfg : jsTruthy (CVal.str s) = true := by simp [jsTruthy, hs]
  simp [htr, hcfg, hparse]

/-- Witness for C6: undecodable text is rejected and the store (one
configuration entry, one organization) is returned untouched. -/
theorem updateOrgConfig_invalid_json_witness :
    updateOrgConfig (fun _ => none)
        ⟨some (CVal.str "1000000000000"), some (CVal.str "not json"), none⟩
        ⟨[("1000000000000", CVal.obj [("a", CVal.num 1)])],
         [{ ORG_ID := CVal.num 1000000000000, ORG_NAME := "Acme" }]⟩ =
      (Except.error ApiErr.invalidConfigFormat,
       ⟨[("1000000000000", CVal.obj [("a", CVal.num 1)])],
        [{ ORG_ID := CVal.num 1000000000000, ORG_NAME := "Acme" }]⟩) :=
  updateOrgConfig_invalid_json (fun _ => none) (CVal.str "1000000000000") "not json" none
    ⟨[("1000000000000", CVal.obj [("a", CVal.num 1)])],
     [{ ORG_ID := CVal.num 1000000000000, ORG_NAME := "Acme" }]⟩
    rfl (by decide) rfl

/-- C7: `createOrg` with an absent or empty name fails with the
missing-name error; with a name equal (case-sensitively) to an existing
organization's name it fails with the duplicate-name error; in every
rejection the organization list is returned unchanged (nothing appended or
persisted). -/
theorem createOrg_rejections (orgs : List Org) :
    createOrg none orgs = (Except.error ApiErr.missingField, orgs) ∧
    createOrg (some "") orgs = (Except.error ApiErr.missingField, orgs) ∧
    ∀ name, name ≠ "" → (∃ o ∈ orgs, o.ORG_NAME = name) →
      createOrg (some name) orgs = (Except.error ApiErr.duplicateName, orgs) := by
  refine ⟨rfl, ?_, ?_⟩
  · unfold createOrg
    simp
  · intro name hne hdup
    have hany : orgs.any (fun o => o.ORG_NAME == name) = true := by
      rw [List.any_eq_true]
      obtain ⟨o, ho, he⟩ := hdup
      exact ⟨o, ho, beq_iff_eq.mpr he⟩
    unfold createOrg
    simp [hne, hany]

/-- C8: when some organization's id already equals the request's `orgId`
compared as strings, the ensure-org step of `updateOrgConfig` is a no-op on
the organization list: the list after the call is exactly the list before
(nothing appended, nothing changed), so an id with exactly one entry before
still has exactly one entry afterwards. -/
theorem updateOrgConfig_existing_org_unchanged (parse : String → Option CVal)
    (req : UpdateReq) (st : Store) (oid : CVal)
    (hoid : req.orgId = some oid)
    (hmem : ∃ o ∈ st.orgs, jsToString o.ORG_ID = jsToString oid) :
    (updateOrgConfig parse req st).2.orgs = st.orgs ∧
    (st.orgs.countP (fun o => jsToString o.ORG_ID == jsToString oid) = 1 →
      (updateOrgConfig parse req st).2.orgs.countP
        (fun o => jsToString o.ORG_ID == jsToString oid) = 1) := by
  have hany : st.orgs.any (fun o => jsToString o.ORG_ID == jsToString oid) = true := by
    rw [List.any_eq_true]
    obtain ⟨o, ho, he⟩ := hmem
    exact ⟨o, ho, beq_iff_eq.mpr he⟩
  have horgs : (updateOrgConfig parse req st).2.orgs = st.orgs := by
    obtain ⟨oidf, cfgf, namef⟩ := req
    simp only at hoid
    subst hoid
    cases cfgf with
    | none => rfl
    | some cfg =>
      unfold updateOrgConfig
      by_cases h1 : (jsTruthy oid && jsTruthy cfg) = true
      · cases hdec : (match cfg with | CVal.str s => parse s | c => some c) with
        | none => simp [h1, hdec]
        | some decoded => simp [h1, hdec, hany]
      · simp [h1]
  exact ⟨horgs, fun h => horgs ▸ h⟩

/-- Witness for C8: updating the configuration of id `1000000000000`, which
already has exactly one record (stored as a number, requested as a string),
leaves the organization list unchanged with its one entry. -/
theorem updateOrgConfig_existing_org_unchanged_witness :
    (updateOrgConfig (fun _ => none)
        ⟨some (CVal.str "1000000000000"),
         some (CVal.obj [("maxDepthAllowed", CVal.num 3)]), none⟩
        ⟨[], [{ ORG_ID := CVal.num 1000000000000, ORG_NAME := "Acme" }]⟩).2.orgs =
      [{ ORG_ID := CVal.num 1000000000000, ORG_NAME := "Acme" }] ∧
    (updateOrgConfig (fun _ => none)
        ⟨some (CVal.str "1000000000000"),
         some (CVal.obj [("maxDepthAllowed", CVal.num 3)]), none⟩
        ⟨[], [{ ORG_ID := CVal.num 1000000000000, ORG_NAME := "Acme" }]⟩).2.orgs.countP
      (fun o => jsToString o.ORG_ID == jsToString (CVal.str "1000000000000")) = 1 :=
  ⟨(updateOrgConfig_existing_org_unchanged (fun _ => none)
      ⟨some (CVal.str "1000000000000"),
       some (CVal.obj [("maxDepthAllowed", CVal.num 3)]), none⟩
      ⟨[], [{ ORG_ID := CVal.num 1000000000000, ORG_NAME := "Acme" }]⟩
      (CVal.str "1000000000000") rfl
      ⟨{ ORG_ID := CVal.num 1000000000000, ORG_NAME := "Acme" },
        List.mem_singleton.mpr rfl, rfl⟩).1,
   (updateOrgConfig_existing_org_unchanged (fun _ => none)
      ⟨some (CVal.str "1000000000000"),
       some (CVal.obj [("maxDepthAllowed", CVal.num 3)]), none⟩
      ⟨[], [{ ORG_ID := CVal.num 1000000000000, ORG_NAME := "Acme" }]⟩
      (CVal.str "1000000000000") rfl
      ⟨{ ORG_ID := CVal.num 1000000000000, ORG_NAME := "Acme" },
        List.mem_singleton.mpr rfl, rfl⟩).2 rfl⟩

/-- C9: on the first configuration write for an id with no entry, when the
incoming partial itself has no `isDefault` key, the merged document that is
returned carries `isDefault: true` inherited from the hardcoded default, it
is persisted under the id's string key, and it satisfies the resolver's
fallback predicate (`c && c.isDefault === true`), making it eligible to be
served as the map-wide fallback for other ids with no entry. -/
theorem updateOrgConfig_first_write_isDefault (parse : String → Option CVal)
    (oid : CVal) (P : List (String × CVal)) (nameField : Option String) (st : Store)
    (htr : jsTruthy oid = true)
    (habsent : lookupFirst st.configs (jsToString oid) = none)
    (hnoKey : "isDefault" ∉ keysOf P) :
    (updateOrgConfig parse ⟨some oid, some (CVal.obj P), nameField⟩ st).1 =
      Except.ok (mergeDocs DEFAULT_CONFIG (CVal.obj P)) ∧
    lookupFirst (mergeDocs DEFAULT_CONFIG (CVal.obj P)) "isDefault" =
      some (CVal.bool true) ∧
    lookupFirst
        (updateOrgConfig parse ⟨some oid, some (CVal.obj P), nameField⟩ st).2.configs
        (jsToString oid) =
      some (CVal.obj (mergeDocs DEFAULT_CONFIG (CVal.obj P))) ∧
    hasIsDefaultTrue (CVal.obj (mergeDocs DEFAULT_CONFIG (CVal.obj P))) = true := by
  have hlk : lookupFirst (mergeDocs DEFAULT_CONFIG (CVal.obj P)) "isDefault" =
      some (CVal.bool true) := by
    rw [show DEFAULT_CONFIG = CVal.obj defaultConfigFields from rfl,
      mergeDocs_obj defaultConfigFields P defaultKeys_nodup,
      lookupFirst_spreadInsertAll_not_mem "isDefault" P defaultConfigFields hnoKey]
    rfl
  refine ⟨(updateOrgConfig_absent_entry parse oid P nameField st htr habsent).1, hlk, ?_, ?_⟩
  · rw [(updateOrgConfig_absent_entry parse oid P nameField st htr habsent).2]
    exact lookupFirst_insertKey_self (jsToString oid) _ st.configs
  · exact (hasIsDefaultTrue_obj _).mpr hlk

/-- Witness for C9 at end-to-end scenario 4's input: the first write of
`{"maxDepthAllowed": 3}` for unseen id `2000000000000` produces a persisted
document satisfying the fallback predicate. -/
theorem updateOrgConfig_first_write_isDefault_witness :
    lookupFirst (mergeDocs DEFAULT_CONFIG
        (CVal.obj [("maxDepthAllowed", CVal.num 3)])) "isDefault" =
      some (CVal.bool true) ∧
    hasIsDefaultTrue (CVal.obj (mergeDocs DEFAULT_CONFIG
        (CVal.obj [("maxDepthAllowed", CVal.num 3)]))) = true :=
  ⟨(updateOrgConfig_first_write_isDefault (fun _ => none) (CVal.str "2000000000000")
      [("maxDepthAllowed", CVal.num 3)] none ⟨[], []⟩ rfl rfl (by decide)).2.1,
   (updateOrgConfig_first_write_isDefault (fun _ => none) (CVal.str "2000000000000")
      [("maxDepthAllowed", CVal.num 3)] none ⟨[], []⟩ rfl rfl (by decide)).2.2.2⟩
